import Mathlib

/-!
Verification of the dynamixel_u2d2 motor-interface library.

The definitions below are a shallow embedding of the Python sources:
`src/dynamixel_u2d2/u2d2_interface.py` (hardware-facing engine) and
`src/dynamixel_u2d2/fake_u2d2_interface.py` (simulated backend).
Byte strings are `List Nat` with each element below 256; Python ints are
`Int`; Python floats arising in the simulated backend are modelled as
exact rationals `ℚ`.  Dict-valued results are modelled as association
lists or as update functions, as noted at each definition.
-/

set_option autoImplicit false

namespace DynamixelU2D2

/-! ## Integer codec: little-endian byte strings -/

/-- Little-endian unsigned interpretation of a byte string, the
`struct.unpack` step of the parse helpers (first byte least significant). -/
def leDecode : List Nat → Nat
  | [] => 0
  | b :: rest => b + 256 * leDecode rest

/-- Little-endian serialization of an unsigned value into `w` bytes, the
`struct.pack` / `int.to_bytes(length, little)` step of the write helpers. -/
def leEncode : Nat → Nat → List Nat
  | _, 0 => []
  | v, w + 1 => v % 256 :: leEncode (v / 256) w

/-- Embedding of `U2D2Interface._parse_2byte_signed` (u2d2_interface.py
lines 390-398): unpack the first two bytes as little-endian unsigned, then
subtract 65536 when the value exceeds 32767; inputs shorter than two bytes
give 0. -/
def parse2ByteSigned (data : List Nat) : Int :=
  if 2 ≤ data.length then
    let value := leDecode (data.take 2)
    if 32767 < value then (value : Int) - 65536 else (value : Int)
  else 0

/-- Embedding of `U2D2Interface._parse_4byte_signed` (u2d2_interface.py
lines 400-408): unpack the first four bytes as little-endian unsigned, then
subtract 4294967296 when the value exceeds 2147483647; short inputs give 0. -/
def parse4ByteSigned (data : List Nat) : Int :=
  if 4 ≤ data.length then
    let value := leDecode (data.take 4)
    if 2147483647 < value then (value : Int) - 4294967296 else (value : Int)
  else 0

/-- Embedding of `U2D2Interface.parse_position`. -/
def parse_position (data : List Nat) : Int := parse4ByteSigned data

/-- Embedding of `U2D2Interface.parse_velocity`. -/
def parse_velocity (data : List Nat) : Int := parse4ByteSigned data

/-- Embedding of `U2D2Interface.parse_current`. -/
def parse_current (data : List Nat) : Int := parse2ByteSigned data

/-- Embedding of `FakeU2D2Interface._parse_position` (fake_u2d2_interface.py
lines 373-380), whose body repeats the 4-byte signed parse. -/
def fakeParsePosition (data : List Nat) : Int :=
  if 4 ≤ data.length then
    let value := leDecode (data.take 4)
    if 2147483647 < value then (value : Int) - 4294967296 else (value : Int)
  else 0

/-- Embedding of `FakeU2D2Interface._parse_velocity` (lines 382-389). -/
def fakeParseVelocity (data : List Nat) : Int :=
  if 4 ≤ data.length then
    let value := leDecode (data.take 4)
    if 2147483647 < value then (value : Int) - 4294967296 else (value : Int)
  else 0

/-- Embedding of `FakeU2D2Interface._parse_current` (lines 391-398), the
2-byte signed parse. -/
def fakeParseCurrent (data : List Nat) : Int :=
  if 2 ≤ data.length then
    let value := leDecode (data.take 2)
    if 32767 < value then (value : Int) - 65536 else (value : Int)
  else 0

/-- General decode of the codec (spec section 4.1), the common pattern of the
parse helpers at width `w`: little-endian unsigned value of the first `w`
bytes, minus `2 ^ (8 * w)` when signed and above the midpoint. -/
def decodeBytes (data : List Nat) (w : Nat) (signed : Bool) : Int :=
  let u := leDecode (data.take w)
  if signed = true ∧ 2 ^ (8 * w - 1) - 1 < u then (u : Int) - 2 ^ (8 * w) else (u : Int)

/-- General encode of the codec, the common pattern of the bulk write
helpers at width `w`: add `2 ^ (8 * w)` to a negative signed value (as
`bulk_write_currents` does with `(1 << 16) + current`), then serialize
little-endian. -/
def encodeBytes (v : Int) (w : Nat) (signed : Bool) : List Nat :=
  let cv : Int := if signed = true ∧ v < 0 then v + 2 ^ (8 * w) else v
  leEncode cv.toNat w

/-- Embedding of the goal-current encoding in `U2D2Interface.bulk_write_currents`
(u2d2_interface.py lines 292-297): two's complement at 16 bits, then
2-byte little-endian pack. -/
def encodeCurrent (current : Int) : List Nat :=
  let cv : Int := if current < 0 then 65536 + current else current
  leEncode cv.toNat 2

/-- Embedding of the goal-position encoding in `U2D2Interface.bulk_write_positions`
(lines 274-276): 4-byte little-endian pack of an unsigned value. -/
def encodePosition (position : Int) : List Nat :=
  leEncode position.toNat 4

theorem leDecode_lt (b : List Nat) (h : ∀ x ∈ b, x < 256) :
    leDecode b < 256 ^ b.length := by
  induction b with
  | nil => simp [leDecode]
  | cons x xs ih =>
    have hx : x < 256 := h x (List.mem_cons_self x xs)
    have hxs := ih (fun y hy => h y (List.mem_cons_of_mem x hy))
    simp only [leDecode, List.length_cons, pow_succ]
    nlinarith [hxs, hx]

theorem leEncode_leDecode (b : List Nat) (h : ∀ x ∈ b, x < 256) :
    leEncode (leDecode b) b.length = b := by
  induction b with
  | nil => rfl
  | cons x xs ih =>
    have hx : x < 256 := h x (List.mem_cons_self x xs)
    have hxs : ∀ y ∈ xs, y < 256 := fun y hy => h y (List.mem_cons_of_mem x hy)
    simp only [leDecode, List.length_cons, leEncode, List.cons.injEq]
    refine ⟨by omega, ?_⟩
    have h1 : (x + 256 * leDecode xs) / 256 = leDecode xs := by omega
    rw [h1]
    exact ih hxs

theorem parse2ByteSigned_eq_decodeBytes (data : List Nat) (h : 2 ≤ data.length) :
    parse2ByteSigned data = decodeBytes data 2 true := by
  simp only [parse2ByteSigned, decodeBytes, if_pos h, true_and]
  norm_num

theorem parse4ByteSigned_eq_decodeBytes (data : List Nat) (h : 4 ≤ data.length) :
    parse4ByteSigned data = decodeBytes data 4 true := by
  simp only [parse4ByteSigned, decodeBytes, if_pos h, true_and]
  norm_num

theorem encodeCurrent_eq_encodeBytes (current : Int) :
    encodeCurrent current = encodeBytes current 2 true := by
  simp only [encodeCurrent, encodeBytes, true_and]
  by_cases hneg : current < 0
  · rw [if_pos hneg, if_pos hneg]
    norm_num [add_comm]
  · rw [if_neg hneg, if_neg hneg]

theorem encodePosition_eq_encodeBytes (position : Int) :
    encodePosition position = encodeBytes position 4 false := by
  simp [encodePosition, encodeBytes]

/-- C1: for every width w in {1,2,4}, every signedness flag, and every
byte string b of length w (whose decoded value then lies in the
representable range by construction), encoding the decoded value back at
the same width and signedness yields exactly b: the two's-complement
little-endian decode of the parse helpers and the little-endian encode of
the bulk write helpers are mutually inverse on w-byte strings. -/
theorem codec_roundtrip (w : Nat) (signed : Bool) (b : List Nat)
    (hw : w = 1 ∨ w = 2 ∨ w = 4) (hlen : b.length = w)
    (hbytes : ∀ x ∈ b, x < 256) :
    encodeBytes (decodeBytes b w signed) w signed = b := by
  subst hlen
  have htake : b.take b.length = b := List.take_length b
  have hu : leDecode b < 2 ^ (8 * b.length) := by
    have h256 : leDecode b < 256 ^ b.length := leDecode_lt b hbytes
    calc leDecode b < 256 ^ b.length := h256
      _ = 2 ^ (8 * b.length) := by
          rw [show (256 : Nat) = 2 ^ 8 by norm_num, ← pow_mul]
  have huI : (leDecode b : Int) < 2 ^ (8 * b.length) := by exact_mod_cast hu
  have hnn : ¬ ((leDecode b : Int) < 0) := not_lt.mpr (Int.natCast_nonneg _)
  cases signed with
  | false =>
    have hdec : decodeBytes b b.length false = (leDecode b : Int) := by
      simp [decodeBytes, htake]
    have henc : encodeBytes (leDecode b : Int) b.length false
        = leEncode (leDecode b) b.length := by
      simp [encodeBytes]
    rw [hdec, henc]
    exact leEncode_leDecode b hbytes
  | true =>
    by_cases hmid : 2 ^ (8 * b.length - 1) - 1 < leDecode b
    · have hdec : decodeBytes b b.length true
          = (leDecode b : Int) - 2 ^ (8 * b.length) := by
        simp only [decodeBytes, htake]
        rw [if_pos ⟨by trivial, hmid⟩]
      have hv : (leDecode b : Int) - 2 ^ (8 * b.length) < 0 := by linarith
      have henc : encodeBytes ((leDecode b : Int) - 2 ^ (8 * b.length)) b.length true
          = leEncode (leDecode b) b.length := by
        simp only [encodeBytes]
        rw [if_pos ⟨by trivial, hv⟩]
        have hsum : (leDecode b : Int) - 2 ^ (8 * b.length) + 2 ^ (8 * b.length)
            = (leDecode b : Int) := by ring
        rw [hsum, Int.toNat_natCast]
      rw [hdec, henc]
      exact leEncode_leDecode b hbytes
    · have hdec : decodeBytes b b.length true = (leDecode b : Int) := by
        simp only [decodeBytes, htake]
        rw [if_neg (fun hc => hmid hc.2)]
      have henc : encodeBytes (leDecode b : Int) b.length true
          = leEncode (leDecode b) b.length := by
        simp only [encodeBytes]
        rw [if_neg (fun hc => hnn hc.2), Int.toNat_natCast]
      rw [hdec, henc]
      exact leEncode_leDecode b hbytes

/-- Witness for codec_roundtrip at w = 2, signed, b = [0x00, 0x80]. -/
theorem codec_roundtrip_witness :
    encodeBytes (decodeBytes [0, 128] 2 true) 2 true = [0, 128] :=
  codec_roundtrip 2 true [0, 128] (Or.inr (Or.inl rfl)) (by decide)
    (by decide)

/-- C2: the 2-byte signed decode of [0xFF, 0x7F] is 32767 and of
[0x00, 0x80] is -32768, while the unsigned little-endian interpretation of
the same byte strings is 32767 and 32768 respectively. -/
theorem twos_complement_boundary :
    parse2ByteSigned [0xFF, 0x7F] = 32767 ∧
    parse2ByteSigned [0x00, 0x80] = -32768 ∧
    decodeBytes [0xFF, 0x7F] 2 false = 32767 ∧
    decodeBytes [0x00, 0x80] 2 false = 32768 ∧
    leDecode [0xFF, 0x7F] = 32767 ∧
    leDecode [0x00, 0x80] = 32768 := by
  refine ⟨?_, ?_, ?_, ?_, by decide, by decide⟩ <;> decide

/-- C10: the byte parsers are total on every byte string: inputs shorter
than the declared width (4 bytes for position and velocity, 2 for current)
give 0 instead of raising, inputs of at least the declared width decode
only the first width bytes (taking the prefix of the declared width does
not change the result), and the fake-backend parsers agree with the
hardware ones on every input. -/
theorem parsers_total (data : List Nat) :
    (data.length < 2 → parse_current data = 0) ∧
    (2 ≤ data.length → parse_current data = parse_current (data.take 2)) ∧
    (data.length < 4 → parse_position data = 0 ∧ parse_velocity data = 0) ∧
    (4 ≤ data.length →
      parse_position data = parse_position (data.take 4) ∧
      parse_velocity data = parse_velocity (data.take 4)) ∧
    fakeParsePosition data = parse_position data ∧
    fakeParseVelocity data = parse_velocity data ∧
    fakeParseCurrent data = parse_current data := by
  have htake2 : (data.take 2).take 2 = data.take 2 := by
    simp [List.take_take]
  have htake4 : (data.take 4).take 4 = data.take 4 := by
    simp [List.take_take]
  refine ⟨?_, ?_, ?_, ?_, rfl, rfl, rfl⟩
  · intro h
    simp only [parse_current, parse2ByteSigned]
    rw [if_neg (by omega)]
  · intro h
    have hlen : 2 ≤ (data.take 2).length := by
      simp only [List.length_take]
      omega
    simp only [parse_current, parse2ByteSigned, if_pos h, if_pos hlen, htake2]
  · intro h
    constructor <;>
      · simp only [parse_position, parse_velocity, parse4ByteSigned]
        rw [if_neg (by omega)]
  · intro h
    have hlen : 4 ≤ (data.take 4).length := by
      simp only [List.length_take]
      omega
    constructor <;>
      · simp only [parse_position, parse_velocity, parse4ByteSigned,
          if_pos h, if_pos hlen, htake4]

/-- Witness for parsers_total on the one-byte input [7]: shorter than
every declared width, so the current parse gives 0. -/
theorem parsers_total_witness : parse_current [7] = 0 :=
  (parsers_total [7]).1 (by decide)

/-! ## Shared serial link and discovery (scan_motors_at_baudrate, scan_all_baudrates) -/

/-- State of the shared serial link owned by the transport collaborator:
its currently active baud rate (portHandler.getBaudRate). -/
structure Port where
  baud : Nat

/-- Transport oracle for discovery. setOk says whether a setBaudRate call
for a given rate succeeds; a failed call returns False and leaves the
active rate unchanged (spec section 4.4: a failed set does not leave the
link at the failed rate). ping gives the outcome of the presence probe of
a motor id at a given rate: some true is a successful probe, some false a
communication failure, and none models a raised exception, which the scan
loop catches per id and skips. -/
structure Transport where
  setOk : Nat → Bool
  ping : Nat → Nat → Option Bool

/-- Semantics of portHandler.setBaudRate over the link state: on success
the active rate becomes the requested one, on failure it is unchanged. -/
def setBaudRate (t : Transport) (p : Port) (rate : Nat) : Bool × Port :=
  if t.setOk rate then (true, ⟨rate⟩) else (false, p)

/-- Embedding of `U2D2Interface.scan_motors_at_baudrate` (u2d2_interface.py
lines 532-585): save the active rate, switch to the probe rate (returning
an empty list on failure), ping every id in the range (per-id exceptions
are caught and the id skipped), then switch back to the saved rate,
ignoring the restore call's boolean result. Returns the final link state
and the detected ids. -/
def scan_motors_at_baudrate (t : Transport) (p : Port) (baudrate : Nat)
    (scanRange : List Nat) : Port × List Nat :=
  let original := p.baud
  let (ok1, p1) := setBaudRate t p baudrate
  if ok1 then
    let detected := scanRange.filter (fun motorId => t.ping baudrate motorId == some true)
    let p2 := (setBaudRate t p1 original).2
    (p2, detected)
  else (p1, [])

/-- The fixed ordered candidate list `U2D2Interface.SCAN_BAUDRATES`. -/
def SCAN_BAUDRATES : List Nat :=
  [9600, 57600, 115200, 1000000, 2000000, 3000000, 4000000]

/-- Embedding of `U2D2Interface.scan_all_baudrates` (lines 587-614): scan
every candidate rate in order and assign `detected_motors[motor_id] =
baudrate` for each detected id; the dict is modelled as an update
function, assignment overwriting any earlier binding. -/
def scan_all_baudrates (t : Transport) (p : Port) (scanRange : List Nat) :
    Port × (Nat → Option Nat) :=
  SCAN_BAUDRATES.foldl
    (fun acc baudrate =>
      let r := scan_motors_at_baudrate t acc.1 baudrate scanRange
      (r.1, r.2.foldl (fun m motorId => fun x =>
        if x = motorId then some baudrate else m x) acc.2))
    (p, fun _ => none)

/-- C4: for every baud rate and every id range, after
scan_motors_at_baudrate returns — with motors detected, with an empty
list because switching to the probe rate failed, or with probe exceptions
swallowed along the way — the link's active baud rate equals the rate
active immediately before the call, provided the transport accepts a
setBaudRate back to that previously active rate. -/
theorem scan_restores_baudrate (t : Transport) (p : Port) (baudrate : Nat)
    (scanRange : List Nat) (h : t.setOk p.baud = true) :
    (scan_motors_at_baudrate t p baudrate scanRange).1.baud = p.baud := by
  unfold scan_motors_at_baudrate setBaudRate
  by_cases hb : t.setOk baudrate <;> simp [hb, h]

/-- Witness for scan_restores_baudrate: a link at 57600 scanning at
4000000 over ids 0-2 ends back at 57600. -/
theorem scan_restores_baudrate_witness :
    (scan_motors_at_baudrate
      ⟨fun b => b == 57600 || b == 4000000, fun _ _ => some true⟩
      ⟨57600⟩ 4000000 [0, 1, 2]).1.baud = 57600 :=
  scan_restores_baudrate _ _ 4000000 [0, 1, 2] (by decide)

/-- Choice of the first defined option, used to state dict-update fold
results. -/
def optOr (a b : Option Nat) : Option Nat :=
  match a with
  | some v => some v
  | none => b

/-- The ids a scan at one rate detects: empty when switching to the rate
fails, otherwise the ids in range whose ping succeeds. -/
def detectedIds (t : Transport) (baudrate : Nat) (scanRange : List Nat) : List Nat :=
  if t.setOk baudrate then
    scanRange.filter (fun motorId => t.ping baudrate motorId == some true)
  else []

theorem scan_snd_eq_detectedIds (t : Transport) (p : Port) (baudrate : Nat)
    (scanRange : List Nat) :
    (scan_motors_at_baudrate t p baudrate scanRange).2
      = detectedIds t baudrate scanRange := by
  unfold scan_motors_at_baudrate setBaudRate detectedIds
  by_cases hb : t.setOk baudrate <;> simp [hb]

theorem foldl_update_apply (ids : List Nat) (b : Nat) (m : Nat → Option Nat) (x : Nat) :
    ids.foldl (fun m motorId => fun y => if y = motorId then some b else m y) m x
      = if x ∈ ids then some b else m x := by
  induction ids generalizing m with
  | nil => simp
  | cons i rest ih =>
    simp only [List.foldl_cons]
    rw [ih]
    by_cases hx : x ∈ rest
    · simp [hx]
    · by_cases hxi : x = i <;> simp [hx, hxi]

theorem scan_fold_lookup (t : Transport) (scanRange : List Nat)
    (bs : List Nat) :
    ∀ (p : Port) (m : Nat → Option Nat) (x : Nat),
    (bs.foldl
      (fun acc baudrate =>
        let r := scan_motors_at_baudrate t acc.1 baudrate scanRange
        (r.1, r.2.foldl (fun m motorId => fun y =>
          if y = motorId then some baudrate else m y) acc.2))
      (p, m)).2 x
      = optOr ((bs.filter (fun b => decide (x ∈ detectedIds t b scanRange))).getLast?)
          (m x) := by
  induction bs with
  | nil => intro p m x; simp [optOr]
  | cons b rest ih =>
    intro p m x
    simp only [List.foldl_cons, List.filter_cons]
    rw [ih]
    rw [scan_snd_eq_detectedIds, foldl_update_apply]
    by_cases hxb : x ∈ detectedIds t b scanRange
    · have hd : decide (x ∈ detectedIds t b scanRange) = true := decide_eq_true hxb
      rw [if_pos hxb, hd, if_pos rfl]
      rcases hrest : rest.filter (fun b => decide (x ∈ detectedIds t b scanRange)) with
        _ | ⟨c, l⟩
      · simp [optOr]
      · rw [List.getLast?_cons_cons,
          List.getLast?_eq_getLast (c :: l) (by simp)]
        simp [optOr]
    · have hd : decide (x ∈ detectedIds t b scanRange) = false := decide_eq_false hxb
      rw [if_neg hxb, hd, if_neg (by simp)]

/-- C5 counterexample: a motor (id 0) that responds at every candidate
rate is bound to 4000000, the last rate of SCAN_BAUDRATES, not to the
first one (9600) as the claim states. -/
theorem scan_all_first_match_counterexample :
    (scan_all_baudrates ⟨fun _ => true, fun _ _ => some true⟩ ⟨57600⟩ [0]).2 0
      = some 4000000 ∧ (4000000 : Nat) ≠ 9600 := by
  constructor
  · rfl
  · decide

/-- C5 amended: when scan_all_baudrates iterates the fixed ordered
candidate list and a motor id responds at more than one rate, the
resulting map binds that id to the last (highest-indexed) rate at which
it responded — each later match for the same id overwrites the earlier
binding. -/
theorem scan_all_last_match (t : Transport) (p : Port) (scanRange : List Nat)
    (x : Nat) :
    (scan_all_baudrates t p scanRange).2 x
      = (SCAN_BAUDRATES.filter
          (fun b => decide (x ∈ detectedIds t b scanRange))).getLast? := by
  unfold scan_all_baudrates
  rw [scan_fold_lookup]
  rcases (SCAN_BAUDRATES.filter
      (fun b => decide (x ∈ detectedIds t b scanRange))).getLast? with _ | v
  · rfl
  · rfl

/-! ## Bulk transaction engine (bulk_read) -/

/-- Outcome of one group-bulk round trip through the transport: whether
the txRxPacket call reported COMM_SUCCESS, and per-entry availability and
raw data keyed by (motor id, address, length). -/
structure BulkResponse where
  commSuccess : Bool
  available : Nat → Nat → Nat → Bool
  data : Nat → Nat → Nat → Nat

/-- Byte conversion of one available entry in `U2D2Interface.bulk_read`:
struct.pack of the raw value at length 2 or 4, int.to_bytes little-endian
otherwise. -/
def packField (d len : Nat) : List Nat :=
  if len = 2 then leEncode d 2
  else if len = 4 then leEncode d 4
  else leEncode d len

/-- Embedding of `U2D2Interface.bulk_read` (u2d2_interface.py lines
184-227): one transaction for all requests; if the round trip fails the
result dict is empty; otherwise every request yields one entry keyed
(motor id, address), with the packed raw data when available and length
zero bytes otherwise. The dict is modelled as an association list in
request order. -/
def bulk_read (resp : BulkResponse) (readParams : List (Nat × Nat × Nat)) :
    List ((Nat × Nat) × List Nat) :=
  if resp.commSuccess then
    readParams.map (fun q =>
      ((q.1, q.2.1),
        if resp.available q.1 q.2.1 q.2.2 then packField (resp.data q.1 q.2.1 q.2.2) q.2.2
        else List.replicate q.2.2 0))
  else []

theorem lookup_map_keyed {α β κ : Type} [BEq κ] [LawfulBEq κ]
    (key : α → κ) (val : α → β) (l : List α) (x : α)
    (hmem : x ∈ l) (hnd : (l.map key).Nodup) :
    List.lookup (key x) (l.map (fun q => (key q, val q))) = some (val x) := by
  induction l with
  | nil => cases hmem
  | cons q rest ih =>
    simp only [List.map_cons, List.nodup_cons] at hnd
    rcases List.mem_cons.mp hmem with h | h
    · subst h
      simp [List.lookup]
    · have hne : (key x == key q) = false := by
        refine beq_eq_false_iff_ne.mpr (fun he => hnd.1 ?_)
        exact he ▸ List.mem_map_of_mem key h
      simp only [List.map_cons, List.lookup, hne]
      exact ih h hnd.2

/-- C3: bulk_read is best-effort per entry. When the transport round trip
succeeds, the result contains the key (motor id, address) for every
request, and (for distinct keys, as a Python dict has) an entry
unavailable in the response is bound to exactly length zero bytes, never
absent; when the round trip fails at transaction level, the result map is
empty. -/
theorem bulk_read_best_effort (resp : BulkResponse)
    (readParams : List (Nat × Nat × Nat)) :
    (resp.commSuccess = false → bulk_read resp readParams = []) ∧
    (resp.commSuccess = true →
      ∀ m a l, (m, a, l) ∈ readParams →
        (m, a) ∈ (bulk_read resp readParams).map Prod.fst ∧
        ((readParams.map (fun q => (q.1, q.2.1))).Nodup →
          resp.available m a l = false →
          List.lookup (m, a) (bulk_read resp readParams)
            = some (List.replicate l 0))) := by
  constructor
  · intro h
    simp [bulk_read, h]
  · intro h m a l hmem
    constructor
    · simp only [bulk_read, h, if_pos, List.map_map]
      exact List.mem_map_of_mem _ hmem
    · intro hnd hunav
      have := lookup_map_keyed (fun q : Nat × Nat × Nat => (q.1, q.2.1))
        (fun q => if resp.available q.1 q.2.1 q.2.2
          then packField (resp.data q.1 q.2.1 q.2.2) q.2.2
          else List.replicate q.2.2 0)
        readParams (m, a, l) hmem hnd
      simpa [bulk_read, h, hunav] using this

/-- Witness for bulk_read_best_effort: one request for 4 bytes at
(motor 1, address 132) whose entry is unavailable is zero-filled. -/
theorem bulk_read_best_effort_witness :
    List.lookup ((1 : Nat), (132 : Nat))
      (bulk_read ⟨true, fun _ _ _ => false, fun _ _ _ => 0⟩ [(1, 132, 4)])
      = some (List.replicate 4 0) :=
  ((bulk_read_best_effort ⟨true, fun _ _ _ => false, fun _ _ _ => 0⟩
    [(1, 132, 4)]).2 rfl 1 132 4 (by decide)).2 (by decide) rfl

/-! ## Reconfiguration manager (change_motors_id) -/

/-- One iteration of the loop of `U2D2Interface.change_motors_id`: an
entry whose current id equals its new id is marked successful with no bus
access; otherwise change_motor_id performs a bus round trip, recorded in
the second component of the accumulator, with outcome given by the
changeOk oracle. -/
def changeIdStep (changeOk : Int → Int → Bool)
    (acc : List (Int × Bool) × List (Int × Int)) (cn : Int × Int) :
    List (Int × Bool) × List (Int × Int) :=
  if cn.1 = cn.2 then (acc.1 ++ [(cn.1, true)], acc.2)
  else (acc.1 ++ [(cn.1, changeOk cn.1 cn.2)], acc.2 ++ [cn])

/-- Embedding of `U2D2Interface.change_motors_id` (u2d2_interface.py lines
743-781), instrumented with a log of the single-motor bus round trips it
performs: an empty mapping, a new id outside 0-252, or a duplicate among
the new ids returns an empty result dict with no bus access; otherwise
each entry is processed in order. The result dict is the association list
of per-motor outcomes. -/
def change_motors_id (changeOk : Int → Int → Bool)
    (idMapping : List (Int × Int)) :
    List (Int × Bool) × List (Int × Int) :=
  if idMapping.isEmpty then ([], [])
  else if (idMapping.map Prod.snd).any (fun n => decide (n < 0) || decide (252 < n)) then
    ([], [])
  else if ¬ (idMapping.map Prod.snd).Nodup then ([], [])
  else idMapping.foldl (changeIdStep changeOk) ([], [])

theorem changeIdStep_fold (changeOk : Int → Int → Bool) (l : List (Int × Int)) :
    ∀ acc : List (Int × Bool) × List (Int × Int),
    l.foldl (changeIdStep changeOk) acc
      = (acc.1 ++ l.map (fun cn => (cn.1, if cn.1 = cn.2 then true else changeOk cn.1 cn.2)),
         acc.2 ++ l.filter (fun cn => decide (cn.1 ≠ cn.2))) := by
  induction l with
  | nil => intro acc; simp
  | cons cn rest ih =>
    intro acc
    simp only [List.foldl_cons, ih, changeIdStep, List.map_cons, List.filter_cons]
    by_cases hcn : cn.1 = cn.2
    · rw [if_pos hcn]
      simp [hcn]
    · rw [if_neg hcn]
      have hd : decide (cn.1 ≠ cn.2) = true := decide_eq_true hcn
      simp [hd, hcn]

/-- C6 counterexample: the mapping {1: 2, 3: 1} has in-range, pairwise
distinct new ids, so validation passes even though new id 1 overlaps
motor 3's change with motor 1's current id: the call does not fail as a
whole — it returns a non-empty result map and performs a bus round trip
for each of the two motors. -/
theorem change_motors_id_overlap_counterexample :
    change_motors_id (fun _ _ => true) [(1, 2), (3, 1)]
      = ([(1, true), (3, true)], [(1, 2), (3, 1)]) ∧
    change_motors_id (fun _ _ => true) [(1, 2), (3, 1)] ≠ ([], []) := by
  constructor
  · rfl
  · decide

/-- C6 amended: change_motors_id validates the whole batch before any bus
access — any mapping containing a new id outside 0-252, or a duplicate
among the new ids, makes the call fail as a whole with an empty result
map and no bus round trip; an entry whose current id already equals its
new id is reported successful without a bus round trip for that motor.
An overlap between one entry's new id and a different entry's current id
(such as the mapping {1: 2, 3: 1}) is not detected and those changes
proceed. -/
theorem change_motors_id_validation (changeOk : Int → Int → Bool)
    (idMapping : List (Int × Int)) :
    ((∃ cn ∈ idMapping, cn.2 < 0 ∨ 252 < cn.2) →
      change_motors_id changeOk idMapping = ([], [])) ∧
    (¬ (idMapping.map Prod.snd).Nodup →
      change_motors_id changeOk idMapping = ([], [])) ∧
    ((idMapping.map Prod.fst).Nodup →
      (∀ cn ∈ idMapping, 0 ≤ cn.2 ∧ cn.2 ≤ 252) →
      (idMapping.map Prod.snd).Nodup →
      ∀ c : Int, (c, c) ∈ idMapping →
        List.lookup c (change_motors_id changeOk idMapping).1 = some true ∧
        c ∉ (change_motors_id changeOk idMapping).2.map Prod.fst) := by
  refine ⟨?_, ?_, ?_⟩
  · rintro ⟨cn, hcn, hbad⟩
    have hne : idMapping.isEmpty = false := by
      cases idMapping with
      | nil => cases hcn
      | cons _ _ => rfl
    have hany : (idMapping.map Prod.snd).any
        (fun n => decide (n < 0) || decide (252 < n)) = true := by
      rw [List.any_eq_true]
      refine ⟨cn.2, List.mem_map_of_mem Prod.snd hcn, ?_⟩
      rcases hbad with hb | hb
      · simp [hb]
      · simp [hb]
    simp [change_motors_id, hne, hany]
  · intro hdup
    by_cases hne : idMapping.isEmpty
    · simp [change_motors_id, hne]
    · simp [change_motors_id, hne, hdup]
  · intro hkeys hrange hsnd c hc
    have hval : change_motors_id changeOk idMapping
        = (idMapping.map (fun cn =>
            (cn.1, if cn.1 = cn.2 then true else changeOk cn.1 cn.2)),
           idMapping.filter (fun cn => decide (cn.1 ≠ cn.2))) := by
      have hne : idMapping.isEmpty = false := by
        cases idMapping with
        | nil => cases hc
        | cons _ _ => rfl
      have hany : (idMapping.map Prod.snd).any
          (fun n => decide (n < 0) || decide (252 < n)) = false := by
        rw [List.any_eq_false]
        intro n hn
        obtain ⟨cn, hcn, hcn2⟩ := List.mem_map.mp hn
        have hr := hrange cn hcn
        subst hcn2
        have h1 : ¬ (cn.2 < 0) := by omega
        have h2 : ¬ (252 < cn.2) := by omega
        simp [h1, h2]
      rw [change_motors_id, if_neg (by simp [hne]), if_neg (by simp [hany]),
        if_neg (by simp [hsnd]), changeIdStep_fold]
      simp
    constructor
    · rw [hval]
      have := lookup_map_keyed (fun cn : Int × Int => cn.1)
        (fun cn => if cn.1 = cn.2 then true else changeOk cn.1 cn.2)
        idMapping (c, c) hc hkeys
      simpa using this
    · rw [hval]
      intro hmm
      obtain ⟨cn, hcnf, hcn1⟩ := List.mem_map.mp hmm
      have hcnm : cn ∈ idMapping := List.mem_of_mem_filter hcnf
      have hcnne : cn.1 ≠ cn.2 := by
        have := List.of_mem_filter hcnf
        simpa using this
      have : cn = (c, c) :=
        List.inj_on_of_nodup_map hkeys hcnm hc hcn1
      rw [this] at hcnne
      exact hcnne rfl

/-- Witness for change_motors_id_validation at the mapping {5: 5, 1: 2}
with a failing bus: the trivial entry 5 is reported successful and no bus
round trip names motor 5. -/
theorem change_motors_id_validation_witness :
    List.lookup (5 : Int)
      (change_motors_id (fun _ _ => false) [(5, 5), (1, 2)]).1 = some true ∧
    (5 : Int) ∉ (change_motors_id (fun _ _ => false) [(5, 5), (1, 2)]).2.map Prod.fst :=
  (change_motors_id_validation (fun _ _ => false) [(5, 5), (1, 2)]).2.2
    (by decide) (by decide) (by decide) 5 (by decide)

/-! ## Simulated backend (FakeU2D2Interface) -/

/-- Operating modes the fake backend accepts in set_motor_mode. -/
inductive Mode where
  | position : Mode
  | current : Mode
deriving DecidableEq

/-- Present-value state of one simulated motor. Positions and velocities
become Python floats through the proportional-control update, modelled
as exact rationals; the present current stays an integer. -/
structure MotorSim where
  position : ℚ
  velocity : ℚ
  current : Int
deriving DecidableEq

/-- Full state of a FakeU2D2Interface instance: the motor_ids list given
to the constructor and the per-motor dictionaries, each modelled as a
function to Option (a missing key maps to none). -/
structure FakeState where
  motorIds : Option (List Int)
  motorStates : Int → Option MotorSim
  motorModes : Int → Option Mode
  torqueEnabled : Int → Option Bool
  goalPositions : Int → Option ℚ
  goalCurrents : Int → Option Int
  velocityLimits : Int → Option Int
  currentLimits : Int → Option Int
  pidGains : Int → Option (Int × Int × Int)

/-- Embedding of `FakeU2D2Interface._initialize_motor_state`
(fake_u2d2_interface.py lines 73-86): zero present state, position mode,
torque disabled, zero goals, default limits and gains. -/
def initializeMotorState (motorId : Int) (s : FakeState) : FakeState :=
  { s with
    motorStates := fun x => if x = motorId then some ⟨0, 0, 0⟩ else s.motorStates x
    motorModes := fun x => if x = motorId then some Mode.position else s.motorModes x
    torqueEnabled := fun x => if x = motorId then some false else s.torqueEnabled x
    goalPositions := fun x => if x = motorId then some 0 else s.goalPositions x
    goalCurrents := fun x => if x = motorId then some 0 else s.goalCurrents x
    velocityLimits := fun x => if x = motorId then some 100 else s.velocityLimits x
    currentLimits := fun x => if x = motorId then some 1000 else s.currentLimits x
    pidGains := fun x => if x = motorId then some (0, 0, 0) else s.pidGains x }

/-- Embedding of the FakeU2D2Interface constructor (lines 36-71): empty
dictionaries, then every motor of the given list (when one is given) is
initialized. -/
def fakeInit (motorIds : Option (List Int)) : FakeState :=
  let s0 : FakeState :=
    ⟨motorIds, fun _ => none, fun _ => none, fun _ => none, fun _ => none,
      fun _ => none, fun _ => none, fun _ => none, fun _ => none⟩
  match motorIds with
  | some ids => ids.foldl (fun s motorId => initializeMotorState motorId s) s0
  | none => s0

/-- Per-motor body of `FakeU2D2Interface._simulate_motor_behavior` (lines
88-113). With torque disabled the state is frozen. In position mode, when
the error to the goal exceeds the dead-band of 5 the velocity becomes the
proportional term error * 0.1 clamped to [-50, 50] and the position
integrates velocity * 0.01; inside the dead-band the velocity is zeroed
and the position is untouched. In current mode the present current tracks
the goal current and the position drifts by the random perturbation
randint(-1, 1), supplied here as the drift argument. A missing mode entry
leaves the state unchanged. -/
def simulateMotor (torque : Bool) (mode : Option Mode) (goalPos : ℚ)
    (goalCur : Int) (drift : ℚ) (m : MotorSim) : MotorSim :=
  if torque = false then m
  else
    match mode with
    | some Mode.position =>
        let error := goalPos - m.position
        if 5 < |error| then
          let velocity := min (max (error * (1 / 10)) (-50)) 50
          { m with velocity := velocity, position := m.position + velocity * (1 / 100) }
        else { m with velocity := 0 }
    | some Mode.current =>
        { m with current := goalCur, position := m.position + drift }
    | none => m

/-- Embedding of `FakeU2D2Interface._simulate_motor_behavior`: every motor
present in the states dictionary is advanced one step, with the source's
dictionary defaults (torque False, goal position defaulting to the
current position, goal current 0). -/
def simulateMotorBehavior (drift : Int → ℚ) (s : FakeState) : FakeState :=
  { s with
    motorStates := fun motorId =>
      match s.motorStates motorId with
      | none => none
      | some m =>
          some (simulateMotor ((s.torqueEnabled motorId).getD false)
            (s.motorModes motorId)
            ((s.goalPositions motorId).getD m.position)
            ((s.goalCurrents motorId).getD 0)
            (drift motorId) m) }

/-- Truncation toward zero, the behavior of Python int() on a float. -/
def truncToInt (q : ℚ) : Int :=
  if q < 0 then ⌈q⌉ else ⌊q⌋

/-- Embedding of `FakeU2D2Interface.init_group_sync_read` (lines 156-161):
it initializes the state of every listed motor that has none yet and —
notably — does not modify the motor_ids list. -/
def init_group_sync_read (s : FakeState) (motorIds : List Int) : FakeState :=
  motorIds.foldl
    (fun st motorId =>
      if (st.motorStates motorId).isSome then st
      else initializeMotorState motorId st) s

/-- Embedding of `FakeU2D2Interface.sync_read_state` (lines 163-181):
raises when motor_ids is None, otherwise advances the simulation one step
and returns the three per-motor lists in group order, missing motors
defaulting to zero state and floats truncated by int(). -/
def sync_read_state (drift : Int → ℚ) (s : FakeState) :
    Except String (FakeState × (List Int × List Int × List Int)) :=
  match s.motorIds with
  | none => Except.error "Sync read not configured. Initialize with motor_ids."
  | some ids =>
      let s1 := simulateMotorBehavior drift s
      Except.ok (s1,
        (ids.map (fun motorId => truncToInt ((s1.motorStates motorId).getD ⟨0, 0, 0⟩).position),
         ids.map (fun motorId => truncToInt ((s1.motorStates motorId).getD ⟨0, 0, 0⟩).velocity),
         ids.map (fun motorId => ((s1.motorStates motorId).getD ⟨0, 0, 0⟩).current)))

/-- One iteration of the write loop of `FakeU2D2Interface.sync_write_positions`
(lines 195-198): store the goal, then initialize the motor if it has no
state yet (which, as in the source, resets the goal just stored to 0). -/
def syncWritePosStep (st : FakeState) (idp : Int × Int) : FakeState :=
  let st1 := { st with goalPositions := fun x =>
    if x = idp.1 then some ((idp.2 : Int) : ℚ) else st.goalPositions x }
  if (st1.motorStates idp.1).isSome then st1 else initializeMotorState idp.1 st1

/-- Embedding of `FakeU2D2Interface.sync_write_positions` (lines 187-200):
raises when motor_ids is None, raises on a length mismatch before any
state is touched, otherwise stores each goal position pairwise. -/
def sync_write_positions (s : FakeState) (positions : List Int) :
    Except String FakeState :=
  match s.motorIds with
  | none => Except.error "Sync write position not configured. Initialize with motor_ids."
  | some ids =>
      if positions.length ≠ ids.length then
        Except.error "positions length must match motor_ids length"
      else Except.ok ((ids.zip positions).foldl syncWritePosStep s)

/-- One iteration of the write loop of `FakeU2D2Interface.sync_write_currents`
(lines 210-213). -/
def syncWriteCurStep (st : FakeState) (idc : Int × Int) : FakeState :=
  let st1 := { st with goalCurrents := fun x =>
    if x = idc.1 then some idc.2 else st.goalCurrents x }
  if (st1.motorStates idc.1).isSome then st1 else initializeMotorState idc.1 st1

/-- Embedding of `FakeU2D2Interface.sync_write_currents` (lines 202-215). -/
def sync_write_currents (s : FakeState) (currents : List Int) :
    Except String FakeState :=
  match s.motorIds with
  | none => Except.error "Sync write current not configured. Initialize with motor_ids."
  | some ids =>
      if currents.length ≠ ids.length then
        Except.error "currents length must match motor_ids length"
      else Except.ok ((ids.zip currents).foldl syncWriteCurStep s)

/-- Modelled from the spec: `STATE_ADDRESS_MAP` is imported by
fake_u2d2_interface.py from u2d2_interface.py but is defined nowhere
under src/; per spec section 4.3 and the base-interface docstrings the
recognized specific states are position, velocity and current, mapped to
their present-value control-table addresses. -/
def STATE_ADDRESS_MAP : List (String × Nat) :=
  [("position", 132), ("velocity", 128), ("current", 126)]

/-- Embedding of `FakeU2D2Interface.sync_read_specific` (lines 228-244):
the motor_ids check comes first, then the state-name check against
STATE_ADDRESS_MAP, then one simulation step and the per-motor values of
the selected field. -/
def sync_read_specific (drift : Int → ℚ) (s : FakeState) (state : String) :
    Except String (FakeState × List Int) :=
  match s.motorIds with
  | none => Except.error "Specific state sync read not configured."
  | some ids =>
      if (STATE_ADDRESS_MAP.map Prod.fst).contains state = false then
        Except.error "Invalid state"
      else
        let s1 := simulateMotorBehavior drift s
        Except.ok (s1, ids.map (fun motorId =>
          let m := (s1.motorStates motorId).getD ⟨0, 0, 0⟩
          if state = "position" then truncToInt m.position
          else if state = "velocity" then truncToInt m.velocity
          else m.current))

theorem syncWritePosStep_goalPositions (st : FakeState) (idp : Int × Int) (x : Int) :
    (syncWritePosStep st idp).goalPositions x
      = if x = idp.1 then
          (if (st.motorStates idp.1).isSome then some ((idp.2 : Int) : ℚ) else some 0)
        else st.goalPositions x := by
  by_cases hs : (st.motorStates idp.1).isSome
  · simp [syncWritePosStep, hs]
  · simp only [syncWritePosStep, hs, Bool.false_eq_true, if_false, initializeMotorState]
    by_cases hx : x = idp.1 <;> simp [hx, hs]

theorem syncWritePosStep_motorStates (st : FakeState) (idp : Int × Int)
    (h : (st.motorStates idp.1).isSome) :
    (syncWritePosStep st idp).motorStates = st.motorStates := by
  simp [syncWritePosStep, h]

theorem syncWritePos_fold_other (pairs : List (Int × Int)) :
    ∀ (s : FakeState) (x : Int), x ∉ pairs.map Prod.fst →
      (pairs.foldl syncWritePosStep s).goalPositions x = s.goalPositions x := by
  induction pairs with
  | nil => intro s x _; rfl
  | cons a rest ih =>
    intro s x hx
    simp only [List.map_cons, List.mem_cons, not_or] at hx
    simp only [List.foldl_cons]
    rw [ih _ _ hx.2, syncWritePosStep_goalPositions, if_neg hx.1]

theorem syncWritePos_fold (pairs : List (Int × Int)) :
    ∀ s : FakeState, (∀ p ∈ pairs, (s.motorStates p.1).isSome) →
      (pairs.map Prod.fst).Nodup →
      (pairs.foldl syncWritePosStep s).motorStates = s.motorStates ∧
      ∀ p ∈ pairs, (pairs.foldl syncWritePosStep s).goalPositions p.1
        = some ((p.2 : Int) : ℚ) := by
  induction pairs with
  | nil => intro s _ _; exact ⟨rfl, by simp⟩
  | cons a rest ih =>
    intro s hinit hnd
    simp only [List.map_cons, List.nodup_cons] at hnd
    have ha : (s.motorStates a.1).isSome := hinit a (List.mem_cons_self a rest)
    have hms : (syncWritePosStep s a).motorStates = s.motorStates :=
      syncWritePosStep_motorStates s a ha
    have hinit2 : ∀ p ∈ rest, ((syncWritePosStep s a).motorStates p.1).isSome := by
      intro p hp
      rw [hms]
      exact hinit p (List.mem_cons_of_mem a hp)
    obtain ⟨ihms, ihgp⟩ := ih (syncWritePosStep s a) hinit2 hnd.2
    simp only [List.foldl_cons]
    refine ⟨by rw [ihms, hms], ?_⟩
    intro p hp
    rcases List.mem_cons.mp hp with h | h
    · subst h
      rw [syncWritePos_fold_other rest _ p.1 hnd.1,
        syncWritePosStep_goalPositions, if_pos rfl, if_pos ha]
    · exact ihgp p h

theorem syncWriteCurStep_goalCurrents (st : FakeState) (idc : Int × Int) (x : Int) :
    (syncWriteCurStep st idc).goalCurrents x
      = if x = idc.1 then
          (if (st.motorStates idc.1).isSome then some idc.2 else some 0)
        else st.goalCurrents x := by
  by_cases hs : (st.motorStates idc.1).isSome
  · simp [syncWriteCurStep, hs]
  · simp only [syncWriteCurStep, hs, Bool.false_eq_true, if_false, initializeMotorState]
    by_cases hx : x = idc.1 <;> simp [hx, hs]

theorem syncWriteCurStep_motorStates (st : FakeState) (idc : Int × Int)
    (h : (st.motorStates idc.1).isSome) :
    (syncWriteCurStep st idc).motorStates = st.motorStates := by
  simp [syncWriteCurStep, h]

theorem syncWriteCur_fold_other (pairs : List (Int × Int)) :
    ∀ (s : FakeState) (x : Int), x ∉ pairs.map Prod.fst →
      (pairs.foldl syncWriteCurStep s).goalCurrents x = s.goalCurrents x := by
  induction pairs with
  | nil => intro s x _; rfl
  | cons a rest ih =>
    intro s x hx
    simp only [List.map_cons, List.mem_cons, not_or] at hx
    simp only [List.foldl_cons]
    rw [ih _ _ hx.2, syncWriteCurStep_goalCurrents, if_neg hx.1]

theorem syncWriteCur_fold (pairs : List (Int × Int)) :
    ∀ s : FakeState, (∀ p ∈ pairs, (s.motorStates p.1).isSome) →
      (pairs.map Prod.fst).Nodup →
      (pairs.foldl syncWriteCurStep s).motorStates = s.motorStates ∧
      ∀ p ∈ pairs, (pairs.foldl syncWriteCurStep s).goalCurrents p.1 = some p.2 := by
  induction pairs with
  | nil => intro s _ _; exact ⟨rfl, by simp⟩
  | cons a rest ih =>
    intro s hinit hnd
    simp only [List.map_cons, List.nodup_cons] at hnd
    have ha : (s.motorStates a.1).isSome := hinit a (List.mem_cons_self a rest)
    have hms : (syncWriteCurStep s a).motorStates = s.motorStates :=
      syncWriteCurStep_motorStates s a ha
    have hinit2 : ∀ p ∈ rest, ((syncWriteCurStep s a).motorStates p.1).isSome := by
      intro p hp
      rw [hms]
      exact hinit p (List.mem_cons_of_mem a hp)
    obtain ⟨ihms, ihgc⟩ := ih (syncWriteCurStep s a) hinit2 hnd.2
    simp only [List.foldl_cons]
    refine ⟨by rw [ihms, hms], ?_⟩
    intro p hp
    rcases List.mem_cons.mp hp with h | h
    · subst h
      rw [syncWriteCur_fold_other rest _ p.1 hnd.1,
        syncWriteCurStep_goalCurrents, if_pos rfl, if_pos ha]
    · exact ihgc p h

/-- C7: for a configured sync group, sync_write_positions and
sync_write_currents fail with the length-mismatch error before touching
any state when the value list length differs from the group length (the
validation precedes the write loop, so no goal changes); with equal
lengths — on a state whose group motors all have initialized state, an
invariant of every reachable interface — each group motor's goal is set
from the value at its position in the list. -/
theorem sync_write_length_validation (s : FakeState) (ids values : List Int)
    (hids : s.motorIds = some ids) :
    (values.length ≠ ids.length →
      sync_write_positions s values
        = Except.error "positions length must match motor_ids length" ∧
      sync_write_currents s values
        = Except.error "currents length must match motor_ids length") ∧
    (∀ (hlen : values.length = ids.length),
      (∀ motorId ∈ ids, (s.motorStates motorId).isSome) →
      ids.Nodup →
      ∃ s1 s2, sync_write_positions s values = Except.ok s1 ∧
        sync_write_currents s values = Except.ok s2 ∧
        ∀ (i : Nat) (hi : i < ids.length),
          s1.goalPositions (ids.get ⟨i, hi⟩)
            = some ((values.get ⟨i, by omega⟩ : Int) : ℚ) ∧
          s2.goalCurrents (ids.get ⟨i, hi⟩)
            = some (values.get ⟨i, by omega⟩)) := by
  constructor
  · intro hne
    constructor <;> simp [sync_write_positions, sync_write_currents, hids, hne]
  · intro hlen hinit hnd
    have hne : ¬ (values.length ≠ ids.length) := by omega
    refine ⟨(ids.zip values).foldl syncWritePosStep s,
      (ids.zip values).foldl syncWriteCurStep s, ?_, ?_, ?_⟩
    · simp [sync_write_positions, hids, hne]
    · simp [sync_write_currents, hids, hne]
    · intro i hi
      have hmapfst : (ids.zip values).map Prod.fst = ids :=
        List.map_fst_zip ids values (by omega)
      have hinit2 : ∀ p ∈ ids.zip values, (s.motorStates p.1).isSome := by
        intro p hp
        apply hinit
        have hm : p.1 ∈ (ids.zip values).map Prod.fst :=
          List.mem_map_of_mem Prod.fst hp
        rwa [hmapfst] at hm
      have hnd2 : ((ids.zip values).map Prod.fst).Nodup := by
        rw [hmapfst]; exact hnd
      have hpair : (ids.get ⟨i, hi⟩, values.get ⟨i, by omega⟩) ∈ ids.zip values := by
        have hzi : i < (ids.zip values).length := by
          rw [List.length_zip]; omega
        have hz : (ids.zip values).get ⟨i, hzi⟩
            = (ids.get ⟨i, hi⟩, values.get ⟨i, by omega⟩) := by
          simp [List.get_eq_getElem, List.getElem_zip]
        rw [← hz]
        exact List.get_mem _ _ _
      obtain ⟨_, hgp⟩ := syncWritePos_fold (ids.zip values) s hinit2 hnd2
      obtain ⟨_, hgc⟩ := syncWriteCur_fold (ids.zip values) s hinit2 hnd2
      exact ⟨hgp _ hpair, hgc _ hpair⟩

/-- Witness for sync_write_length_validation: a group of three motors with
a two-element value list is rejected with the length-mismatch error. -/
theorem sync_write_length_validation_witness :
    sync_write_positions (fakeInit (some [11, 21, 31])) [2048, 2048]
      = Except.error "positions length must match motor_ids length" :=
  ((sync_write_length_validation (fakeInit (some [11, 21, 31])) [11, 21, 31]
    [2048, 2048] rfl).1 (by decide)).1

theorem init_group_sync_read_motorIds (s : FakeState) (ids : List Int) :
    (init_group_sync_read s ids).motorIds = s.motorIds := by
  induction ids generalizing s with
  | nil => rfl
  | cons i rest ih =>
    show (init_group_sync_read _ rest).motorIds = _
    rw [ih]
    by_cases hs : (s.motorStates i).isSome <;>
      simp [hs, initializeMotorState]

/-- C8 counterexample: an interface constructed with motor_ids [1]
accepts sync_read_state, sync_write_positions and sync_read_specific
without any init call ever made, and an interface constructed with
motor_ids None still fails after init_group_sync_read, because
init_group_sync_read does not set the motor-id list. -/
theorem sync_before_init_counterexample :
    (sync_read_state (fun _ => 0) (fakeInit (some [1]))).isOk = true ∧
    (sync_write_positions (fakeInit (some [1])) [5]).isOk = true ∧
    (sync_read_specific (fun _ => 0) (fakeInit (some [1])) "position").isOk = true ∧
    (sync_read_state (fun _ => 0)
      (init_group_sync_read (fakeInit none) [1])).isOk = false :=
  ⟨rfl, rfl, rfl, rfl⟩

/-- C8 amended: a sync operation fails with the not-configured error
exactly when the interface holds no motor-id list (constructed with
motor_ids None); init_group_sync_read leaves the motor-id list unchanged,
so a prior init call neither enables a None-constructed interface nor is
needed by a list-constructed one. -/
theorem sync_not_configured (s : FakeState) (drift : Int → ℚ)
    (values : List Int) (state : String) (ids : List Int)
    (h : s.motorIds = none) :
    sync_read_state drift s
      = Except.error "Sync read not configured. Initialize with motor_ids." ∧
    sync_read_specific drift s state
      = Except.error "Specific state sync read not configured." ∧
    sync_write_positions s values
      = Except.error "Sync write position not configured. Initialize with motor_ids." ∧
    sync_write_currents s values
      = Except.error "Sync write current not configured. Initialize with motor_ids." ∧
    (init_group_sync_read s ids).motorIds = s.motorIds := by
  refine ⟨?_, ?_, ?_, ?_, init_group_sync_read_motorIds s ids⟩ <;>
    simp [sync_read_state, sync_read_specific, sync_write_positions,
      sync_write_currents, h]

/-- Witness for sync_not_configured on a None-constructed interface. -/
theorem sync_not_configured_witness :
    sync_read_state (fun _ => 0) (fakeInit none)
      = Except.error "Sync read not configured. Initialize with motor_ids." :=
  (sync_not_configured (fakeInit none) (fun _ => 0) [] "position" [] rfl).1

/-- C9: on the simulated backend, one simulation step of a motor with
torque enabled and position mode moves the position monotonically toward
the goal: the absolute error never increases, its sign never flips (no
overshoot), and once the absolute error is within the dead-band of 5 the
velocity becomes 0 and the position is unchanged, hence fixed across
arbitrarily many repeated reads. -/
theorem simulate_position_monotone (g : ℚ) (gc : Int) (drift : ℚ) (m : MotorSim) :
    |g - (simulateMotor true (some Mode.position) g gc drift m).position|
      ≤ |g - m.position| ∧
    (0 ≤ g - m.position →
      0 ≤ g - (simulateMotor true (some Mode.position) g gc drift m).position) ∧
    (g - m.position ≤ 0 →
      g - (simulateMotor true (some Mode.position) g gc drift m).position ≤ 0) ∧
    (|g - m.position| ≤ 5 →
      (simulateMotor true (some Mode.position) g gc drift m).position = m.position ∧
      (simulateMotor true (some Mode.position) g gc drift m).velocity = 0) ∧
    (|g - m.position| ≤ 5 → ∀ n : Nat,
      ((simulateMotor true (some Mode.position) g gc drift)^[n] m).position
        = m.position) := by
  have step4 : ∀ mm : MotorSim, |g - mm.position| ≤ 5 →
      simulateMotor true (some Mode.position) g gc drift mm
        = { mm with velocity := 0 } := by
    intro mm hmm
    have hnb : ¬ (5 < |g - mm.position|) := not_lt.mpr hmm
    simp [simulateMotor, hnb]
  by_cases hdb : 5 < |g - m.position|
  · have hred : simulateMotor true (some Mode.position) g gc drift m
        = { m with
            velocity := min (max ((g - m.position) * (1 / 10)) (-50)) 50,
            position := m.position
              + min (max ((g - m.position) * (1 / 10)) (-50)) 50 * (1 / 100) } := by
      simp [simulateMotor, hdb]
    have hbound :
        (5 < g - m.position →
          0 < g - (m.position
            + min (max ((g - m.position) * (1 / 10)) (-50)) 50 * (1 / 100)) ∧
          g - (m.position
            + min (max ((g - m.position) * (1 / 10)) (-50)) 50 * (1 / 100))
            < g - m.position) ∧
        (g - m.position < -5 →
          g - m.position
            < g - (m.position
              + min (max ((g - m.position) * (1 / 10)) (-50)) 50 * (1 / 100)) ∧
          g - (m.position
            + min (max ((g - m.position) * (1 / 10)) (-50)) 50 * (1 / 100)) < 0) := by
      constructor
      · intro h5
        have hmax : max ((g - m.position) * (1 / 10)) (-50)
            = (g - m.position) * (1 / 10) := max_eq_left (by linarith)
        have hvle : min (max ((g - m.position) * (1 / 10)) (-50)) 50
            ≤ (g - m.position) * (1 / 10) := by
          rw [hmax]; exact min_le_left _ _
        have hvpos : 0 < min (max ((g - m.position) * (1 / 10)) (-50)) 50 := by
          rw [hmax]; exact lt_min (by linarith) (by norm_num)
        constructor <;> linarith
      · intro h5
        have hm1 : (g - m.position) * (1 / 10)
            ≤ max ((g - m.position) * (1 / 10)) (-50) := le_max_left _ _
        have hm2 : max ((g - m.position) * (1 / 10)) (-50) < 0 :=
          max_lt (by linarith) (by norm_num)
        have hvm : min (max ((g - m.position) * (1 / 10)) (-50)) 50
            = max ((g - m.position) * (1 / 10)) (-50) :=
          min_eq_left (by linarith)
        rw [hvm]
        constructor <;> linarith
    refine ⟨?_, ?_, ?_, ?_, ?_⟩
    · rw [hred]
      show |g - (m.position
          + min (max ((g - m.position) * (1 / 10)) (-50)) 50 * (1 / 100))|
        ≤ |g - m.position|
      rcases lt_abs.mp hdb with h5 | h5
      · obtain ⟨hb1, hb2⟩ := hbound.1 h5
        rw [abs_of_pos hb1, abs_of_pos (by linarith)]
        linarith
      · have h5n : g - m.position < -5 := by linarith
        obtain ⟨hb1, hb2⟩ := hbound.2 h5n
        rw [abs_of_neg hb2, abs_of_neg (by linarith)]
        linarith
    · intro hpos
      rw [hred]
      show 0 ≤ g - (m.position
        + min (max ((g - m.position) * (1 / 10)) (-50)) 50 * (1 / 100))
      have h5 : 5 < g - m.position := by
        rcases lt_abs.mp hdb with h5 | h5
        · exact h5
        · linarith
      linarith [(hbound.1 h5).1]
    · intro hneg
      rw [hred]
      show g - (m.position
        + min (max ((g - m.position) * (1 / 10)) (-50)) 50 * (1 / 100)) ≤ 0
      have h5 : g - m.position < -5 := by
        rcases lt_abs.mp hdb with h5 | h5
        · linarith
        · linarith
      linarith [(hbound.2 h5).2]
    · intro hin
      exact absurd hdb (not_lt.mpr hin)
    · intro hin
      exact absurd hdb (not_lt.mpr hin)
  · have hin : |g - m.position| ≤ 5 := not_lt.mp hdb
    have hres := step4 m hin
    refine ⟨?_, ?_, ?_, fun _ => ⟨by rw [hres], by rw [hres]⟩, ?_⟩
    · rw [hres]
    · intro h
      rw [hres]
      exact h
    · intro h
      rw [hres]
      exact h
    · intro _ n
      induction n with
      | zero => rfl
      | succ k ihk =>
        rw [Function.iterate_succ_apply']
        have hk : |g - ((simulateMotor true (some Mode.position) g gc drift)^[k] m).position|
            ≤ 5 := by
          rw [ihk]
          exact hin
        rw [step4 _ hk]
        exact ihk

/-- Witness for simulate_position_monotone inside the dead-band: at goal
2048 from position 2045 the step leaves the position unchanged. -/
theorem simulate_position_monotone_witness :
    (simulateMotor true (some Mode.position) 2048 0 0
      ⟨2045, 7, 0⟩).position = 2045 :=
  ((simulate_position_monotone 2048 0 0 ⟨2045, 7, 0⟩).2.2.2.1
    (by norm_num [abs_le])).1

end DynamixelU2D2
